import Mathlib

/-!
Shallow embedding of the connection-level wire-protocol transport implemented in
src/mongo/util/net/message_port.cpp (class MessagingPort and helper class
PiggyBackData), together with proofs about its framing, handshake, piggyback
batching and request/response correlation behaviour.

Modelling conventions:
- 32-bit machine integers are `Int` values; where C++ performs a cast to an
  unsigned type the reduction modulo 2^w is written out explicitly.
- The byte stream of the Transport is a `List Nat` of byte values; the host is
  little-endian, so a 32-bit field is laid out low byte first.
- Fallible paths are explicit: a `uasserted`/`verify` failure raises an
  exception in the C++ code and is modelled as a distinguished outcome
  constructor (it never delivers a value).
- The build is modelled without MONGO_SSL defined, i.e. the `#ifndef MONGO_SSL`
  branch of MessagingPort::recv is the live one.
-/

set_option maxRecDepth 8192

namespace MongoWire

/-- Little-endian byte layout of a 32-bit value held in an `Int`, as the bytes
appear in memory on the little-endian hosts this networking code targets. -/
def le32 (v : Int) : List Nat :=
  let u : Nat := (v % 4294967296).toNat
  [u % 256, u / 256 % 256, u / 65536 % 256, u / 16777216 % 256]

/-- The four 32-bit fields of MSGHEADER::Value: messageLength, requestID,
responseTo, opCode (in wire order). -/
structure MSGHEADER where
  messageLength : Int
  requestID : Int
  responseTo : Int
  opCode : Int
deriving DecidableEq, Repr

/-- The 16 raw bytes of a message header as laid out on the wire. -/
def headerBytes (h : MSGHEADER) : List Nat :=
  le32 h.messageLength ++ le32 h.requestID ++ le32 h.responseTo ++ le32 h.opCode

/-- static_cast of a (32-bit int) value to size_t on a 64-bit host:
reduction modulo 2^64. -/
def castSize (v : Int) : Nat := (v % 18446744073709551616).toNat

/-- Modelled from the spec: the constant MaxMessageSizeBytes, the framing upper
bound (declared in message.h, which is not among the sources here); the MongoDB
wire protocol of this era fixes it at 48000000 bytes. -/
def MaxMessageSizeBytes : Nat := 48000000

/-- The receive-buffer size computed by MessagingPort::recv:
z = (len+1023) & 0xfffffc00 (0xfffffc00 = 4294966272). -/
def bufSize (len : Nat) : Nat := (len + 1023) &&& 4294966272

/-- Byte values of an ASCII string (every character of the strings sent by this
code is ASCII, so the byte count equals the character count). -/
def strBytes (s : String) : List Nat := s.data.map Char.toNat

/-- The explanatory text sent to an HTTP client that connected to the wire
port, verbatim from MessagingPort::recv. -/
def httpMsg : String :=
  "It looks like you are trying to access MongoDB over HTTP on the native driver port.\n"

/-- The HTTP response headers built by MessagingPort::recv before the
Content-Length field. -/
def httpPre : String :=
  "HTTP/1.0 200 OK\r\nConnection: close\r\nContent-Type: text/plain\r\n"

/-- The full HTTP response string sent on the http-GET path: headers, a
Content-Length field holding msg.size(), a blank line, then the body. -/
def httpResponse : String :=
  httpPre ++ "Content-Length: " ++ toString (strBytes httpMsg).length ++ "\r\n\r\n" ++ httpMsg

/-- Whether a character list contains the blank line separator CR LF CR LF. -/
def hasBlankLine : List Char → Bool
  | '\r' :: '\n' :: '\r' :: '\n' :: _ => true
  | _ :: rest => hasBlankLine rest
  | [] => false

/-- The 4 bytes of the endian-probe reply: unsigned foo = 0x10203040 sent as
raw memory, hence in host (little-endian) byte order. -/
def endianBytes : List Nat := le32 270544960

/-- The Socket state visible to this code: the awaiting-handshake flag
(cleared by setHandshakeReceived) and whether the descriptor was closed. -/
structure SockState where
  awaitingHandshake : Bool
  closed : Bool
deriving DecidableEq, Repr

/-- One write performed on the Transport: the bytes and the context tag the
source passes to send(). -/
structure Send where
  bytes : List Nat
  context : String
deriving DecidableEq, Repr

/-- One event on the receive side of the Transport: either a socket error
while reading the 16 header bytes, or a successfully read header followed by
the bytes available for the body read. -/
inductive NetInput where
  | hdrFail : NetInput
  | hdr (h : MSGHEADER) (avail : List Nat) : NetInput
deriving DecidableEq, Repr

/-- How one call of MessagingPort::recv(Message&) ends: returns true with a
message, returns false, raises a uasserted exception with the given code,
fails the internal verify(z>=len) check, or would block for more input. -/
inductive RecvOutcome where
  | ok : RecvOutcome
  | fail : RecvOutcome
  | uassertErr (code : Nat) : RecvOutcome
  | verifyFailed : RecvOutcome
  | blocked : RecvOutcome
deriving DecidableEq, Repr

/-- Result of MessagingPort::recv(Message&): the outcome, the final content of
the out-parameter Message (none = empty), the Transport writes it performed,
and the final socket state. -/
structure RecvRet where
  outcome : RecvOutcome
  msg : Option (List Nat)
  sends : List Send
  sock : SockState
deriving DecidableEq, Repr

/-- MessagingPort::recv(Message& m), MONGO_SSL not defined.  The input list
supplies one entry per header read (the goto-again loop consumes successive
entries); `m0` is the content of the out-parameter on entry.  Mirrors the
source order: http-GET sentinel, endian-probe sentinel, first-packet
handshake test on responseTo, length validation, then buffer allocation,
header copy and body read. -/
def recvModel (sock : SockState) (m0 : Option (List Nat)) : List NetInput → RecvRet
  | [] => ⟨RecvOutcome.blocked, m0, [], sock⟩
  | NetInput.hdrFail :: _ => ⟨RecvOutcome.fail, none, [], sock⟩
  | NetInput.hdr h avail :: rest =>
    if h.messageLength = 542393671 then
      ⟨RecvOutcome.fail, m0, [⟨strBytes httpResponse, "http"⟩], sock⟩
    else if h.messageLength = -1 then
      let r := recvModel { sock with awaitingHandshake := false } m0 rest
      ⟨r.outcome, r.msg, ⟨endianBytes, "endian"⟩ :: r.sends, r.sock⟩
    else if sock.awaitingHandshake ∧ h.responseTo ≠ 0 ∧ h.responseTo ≠ -1 then
      ⟨RecvOutcome.uassertErr 17133, m0, [], sock⟩
    else if castSize h.messageLength < 16 ∨ MaxMessageSizeBytes < castSize h.messageLength then
      ⟨RecvOutcome.fail, m0, [], sock⟩
    else
      let sock1 : SockState := { sock with awaitingHandshake := false }
      let len := castSize h.messageLength
      if bufSize len < len then
        ⟨RecvOutcome.verifyFailed, m0, [], sock1⟩
      else if len - 16 ≤ avail.length then
        ⟨RecvOutcome.ok, some (headerBytes h ++ avail.take (len - 16)), [], sock1⟩
      else
        ⟨RecvOutcome.fail, none, [], sock1⟩

/-- An outgoing Message: its header and payload bytes.  The model's messages
always carry a header, matching the verify(!toSend.empty()) precondition of
say(). -/
structure OutMsg where
  header : MSGHEADER
  payload : List Nat
deriving DecidableEq, Repr

/-- m.header().getLen(): the stored messageLength field. -/
def getLen (m : OutMsg) : Int := m.header.messageLength

/-- The serialized bytes of a message buffer: header then payload. -/
def msgBytes (m : OutMsg) : List Nat := headerBytes m.header ++ m.payload

/-- The bytes PiggyBackData::append copies:
memcpy(_cur, m.singleData().view2ptr(), m.header().getLen()). -/
def appendBytes (m : OutMsg) : List Nat := (msgBytes m).take (getLen m).toNat

/-- A message is well formed when its stored length matches the invariant
totalLength == 16 + payload.len() of the spec data model. -/
def wellFormed (m : OutMsg) : Prop :=
  m.header.messageLength = 16 + (m.payload.length : Int)

/-- The connection-port state the send paths touch: the global message id
counter (modelled from the spec: a process-wide monotonically increasing
counter drawn by nextMessageId(), declared outside these sources), the
piggyback buffer (none = the piggyBackData pointer is null), and the ordered
list of Transport writes. -/
structure Port where
  counter : Int
  buf : Option (List Nat)
  writes : List Send
deriving DecidableEq, Repr

/-- PiggyBackData::flush(): no-op when the buffer is empty, otherwise one
Transport write of all buffered bytes, then reset the cursor. -/
def portFlush (p : Port) : Port :=
  match p.buf with
  | none => p
  | some b =>
    if b = [] then p
    else { p with buf := some [], writes := p.writes ++ [⟨b, "flush"⟩] }

/-- PiggyBackData::append(m): verify(getLen <= 1300) (failure modelled as
none), flush first when the buffered length plus this message would exceed
1300, then copy the message bytes behind the cursor. -/
def portAppend (p : Port) (m : OutMsg) : Option Port :=
  if 1300 < getLen m then none
  else
    let p1 := if 1300 < ((p.buf.getD []).length : Int) + getLen m then portFlush p else p
    some { p1 with buf := some (p1.buf.getD [] ++ appendBytes m) }

/-- Modelled from the spec: the default responseTo argument of say(), declared
in message_port.h (not among the sources here); historically -1. -/
def sayDefault : Int := -1

/-- Header restamping done by say() and piggyBack():
setId(nextMessageId()); setResponseTo(responseTo). -/
def stamp (m : OutMsg) (id responseTo : Int) : OutMsg :=
  { m with header := { m.header with requestID := id, responseTo := responseTo } }

/-- MessagingPort::say(toSend, responseTo): stamp a fresh id and the given
responseTo; when the piggyback buffer exists and holds bytes, either flush it
and then transmit the message directly (when it would not fit), or append the
message and flush (when it fits); otherwise transmit directly. -/
def sayModel (p : Port) (toSend : OutMsg) (responseTo : Int) : Option (Port × OutMsg) :=
  let m := stamp toSend p.counter responseTo
  let p1 : Port := { p with counter := p.counter + 1 }
  if (p1.buf.getD []).length ≠ 0 then
    if 1300 < ((p1.buf.getD []).length : Int) + getLen m then
      let p2 := portFlush p1
      some ({ p2 with writes := p2.writes ++ [⟨msgBytes m, "say"⟩] }, m)
    else
      match portAppend p1 m with
      | none => none
      | some p2 => some (portFlush p2, m)
  else
    some ({ p1 with writes := p1.writes ++ [⟨msgBytes m, "say"⟩] }, m)

/-- MessagingPort::piggyBack(toSend, responseTo): a message longer than 1300
bytes is handed to say(toSend) with say's default responseTo; otherwise the
message is stamped, the buffer allocated if absent, and the message appended
(the append itself may auto-flush). -/
def piggyBackModel (p : Port) (toSend : OutMsg) (responseTo : Int) : Option (Port × OutMsg) :=
  if 1300 < getLen toSend then
    sayModel p toSend sayDefault
  else
    let m := stamp toSend p.counter responseTo
    let p1 : Port := { p with counter := p.counter + 1 }
    let p2 : Port := if p1.buf = none then { p1 with buf := some [] } else p1
    match portAppend p2 m with
    | none => none
    | some p3 => some (p3, m)

/-- How the correlation loop of call() ends. -/
inductive CallOutcome where
  | success (reply : MSGHEADER) : CallOutcome
  | recvFailed : CallOutcome
  | blocked : CallOutcome
  | correlationError : CallOutcome
deriving DecidableEq, Repr

/-- The loop of MessagingPort::recv(const Message& toSend, Message& response):
each list entry is one recv(response) outcome (none = it returned false).  A
reply whose responseTo equals the sent id breaks the loop successfully; a
mismatch is logged and hits verify(false), an aborting invariant failure,
modelled as correlationError - the reset-and-retry after it is dead code, so
the remaining entries are never consumed. -/
def callCorrelate (sentId : Int) : List (Option MSGHEADER) → CallOutcome
  | [] => CallOutcome.blocked
  | none :: _ => CallOutcome.recvFailed
  | some r :: _ =>
    if r.responseTo = sentId then CallOutcome.success r else CallOutcome.correlationError

/-- MessagingPort::call(toSend, response): say(toSend) (one-argument call, so
say's default responseTo), then the correlation loop against the id freshly
stamped into toSend. -/
def callModel (p : Port) (toSend : OutMsg) (replies : List (Option MSGHEADER)) :
    Option (Port × OutMsg × CallOutcome) :=
  match sayModel p toSend sayDefault with
  | none => none
  | some (p1, m) => some (p1, m, callCorrelate m.header.requestID replies)

/-- Repeated PiggyBackData::append over a list of messages. -/
def appendAll (p : Port) : List OutMsg → Option Port
  | [] => some p
  | m :: ms =>
    match portAppend p m with
    | none => none
    | some p1 => appendAll p1 ms

/-- Sum of the stored header lengths of a list of messages. -/
def lenSum (ms : List OutMsg) : Int := (ms.map getLen).sum

/-- Concatenated serialized bytes of a list of messages, in order. -/
def joinBytes (ms : List OutMsg) : List Nat := (ms.map msgBytes).flatten

end MongoWire

namespace MongoWire

/-! ### Helper lemmas -/

theorem headerBytes_length (h : MSGHEADER) : (headerBytes h).length = 16 := by
  simp [headerBytes, le32]

theorem recvModel_closed (ins : List NetInput) :
    ∀ (sock : SockState) (m0 : Option (List Nat)),
      (recvModel sock m0 ins).sock.closed = sock.closed := by
  induction ins with
  | nil => intro sock m0; rfl
  | cons i rest ih =>
    intro sock m0
    cases i with
    | hdrFail => rfl
    | hdr h avail =>
      simp only [recvModel]
      split_ifs <;> simp [ih]


/-! ### Claim C6: endian probe -/

/-- Claim C6: when the header length bytes decode to -1, the handle sends back
exactly the 4 bytes of 0x10203040 in host (little-endian) byte order, marks
the handshake as received, and loops back to read a fresh header; the probe
round itself delivers no Message and contributes nothing but the echo to the
result of the continued receive. -/
theorem recv_endian_probe (s : SockState) (m0 : Option (List Nat)) (h : MSGHEADER)
    (avail : List Nat) (rest : List NetInput) (hlen : h.messageLength = -1) :
    recvModel s m0 (NetInput.hdr h avail :: rest)
      = ⟨(recvModel { s with awaitingHandshake := false } m0 rest).outcome,
         (recvModel { s with awaitingHandshake := false } m0 rest).msg,
         ⟨endianBytes, "endian"⟩ :: (recvModel { s with awaitingHandshake := false } m0 rest).sends,
         (recvModel { s with awaitingHandshake := false } m0 rest).sock⟩
    ∧ endianBytes = [64, 48, 32, 16] := by
  constructor
  · simp [recvModel, hlen]
  · rfl

/-! ### Claim C7: plaintext HTTP GET -/

/-- Claim C7: when the header length bytes decode to 542393671 (ASCII "GET "),
the handle sends one plaintext HTTP/1.0 200 OK response whose Content-Length
field carries the byte length of the body that follows the blank line (the
body is httpMsg, 84 bytes, and no earlier blank line occurs in the headers),
and recv reports failure, delivering no Message. -/
theorem recv_http_get (s : SockState) (m0 : Option (List Nat)) (h : MSGHEADER)
    (avail : List Nat) (rest : List NetInput) (hlen : h.messageLength = 542393671) :
    recvModel s m0 (NetInput.hdr h avail :: rest)
      = ⟨RecvOutcome.fail, m0, [⟨strBytes httpResponse, "http"⟩], s⟩
    ∧ httpResponse
        = httpPre ++ "Content-Length: " ++ toString (strBytes httpMsg).length ++ "\r\n\r\n" ++ httpMsg
    ∧ (strBytes httpMsg).length = 84
    ∧ hasBlankLine (httpPre ++ "Content-Length: " ++ toString (strBytes httpMsg).length).data = false := by
  refine ⟨by simp [recvModel, hlen], rfl, by decide, by decide⟩

/-! ### Claim C9: handshake test precedes length validation -/

/-- Claim C9: on a first packet (handshake still awaited) whose responseTo is
neither 0 nor -1 and whose length is not one of the two sentinels, recv takes
the handshake path and, without TLS support compiled in, raises assertion
17133 - it never reaches the length validation, whatever the length is. -/
theorem recv_handshake_before_length (s : SockState) (m0 : Option (List Nat))
    (h : MSGHEADER) (avail : List Nat) (rest : List NetInput)
    (hawait : s.awaitingHandshake = true)
    (hr0 : h.responseTo ≠ 0) (hr1 : h.responseTo ≠ -1)
    (hget : h.messageLength ≠ 542393671) (hend : h.messageLength ≠ -1) :
    recvModel s m0 (NetInput.hdr h avail :: rest)
      = ⟨RecvOutcome.uassertErr 17133, m0, [], s⟩ := by
  simp [recvModel, hget, hend, hawait, hr0, hr1]

/-! ### Claim C3: invalid lengths are rejected -/

/-- Claim C3: every header whose 32-bit totalLength is below 16 or above
MaxMessageSizeBytes (the two sentinels excluded) makes recv fail - either the
framing check returns false or, on a first packet with responseTo outside
{0,-1}, the handshake assertion raises - and no Message is delivered: the out
parameter keeps its entry value. -/
theorem recv_invalid_length_fails (s : SockState) (m0 : Option (List Nat))
    (h : MSGHEADER) (avail : List Nat) (rest : List NetInput)
    (hlo : -2147483648 ≤ h.messageLength) (hhi : h.messageLength < 2147483648)
    (hget : h.messageLength ≠ 542393671) (hend : h.messageLength ≠ -1)
    (hbad : h.messageLength < 16 ∨ (MaxMessageSizeBytes : Int) < h.messageLength) :
    ((recvModel s m0 (NetInput.hdr h avail :: rest)).outcome = RecvOutcome.fail
      ∨ (recvModel s m0 (NetInput.hdr h avail :: rest)).outcome = RecvOutcome.uassertErr 17133)
    ∧ (recvModel s m0 (NetInput.hdr h avail :: rest)).msg = m0 := by
  have hcast : castSize h.messageLength < 16 ∨ MaxMessageSizeBytes < castSize h.messageLength := by
    simp only [MaxMessageSizeBytes] at hbad ⊢
    unfold castSize
    omega
  by_cases hss : s.awaitingHandshake ∧ h.responseTo ≠ 0 ∧ h.responseTo ≠ -1
  · refine ⟨Or.inr ?_, ?_⟩ <;> simp [recvModel, hget, hend, hss]
  · refine ⟨Or.inl ?_, ?_⟩ <;> simp [recvModel, hget, hend, hss, hcast]

/-- Counterexample to claim C4 as stated: a framing failure (length 5) makes
recv return false but leaves the output Message holding its previous bytes -
it is not reset to empty. -/
theorem recv_framing_no_reset_cex :
    (recvModel ⟨false, false⟩ (some [1, 2, 3]) [NetInput.hdr ⟨5, 0, 0, 0⟩ []]).outcome
        = RecvOutcome.fail
    ∧ (recvModel ⟨false, false⟩ (some [1, 2, 3]) [NetInput.hdr ⟨5, 0, 0, 0⟩ []]).msg
        = some [1, 2, 3]
    ∧ (recvModel ⟨false, false⟩ (some [1, 2, 3]) [NetInput.hdr ⟨5, 0, 0, 0⟩ []]).msg
        ≠ (none : Option (List Nat)) := by
  refine ⟨by decide, by decide, by decide⟩


/-! ### Rounding arithmetic of the receive buffer -/

/-- Masking with 0xfffffc00 clears the low 10 bits of any value below 2^32. -/
theorem land_mask_eq (n : Nat) (hn : n < 4294967296) :
    n &&& 4294966272 = n / 1024 * 1024 := by
  have hm : (4294966272 : Nat) = (2 ^ 22 - 1) <<< 10 := by decide
  have hr : n / 1024 * 1024 = (n >>> 10) <<< 10 := by
    rw [Nat.shiftRight_eq_div_pow, Nat.shiftLeft_eq]
  rw [hm, hr]
  apply Nat.eq_of_testBit_eq
  intro j
  rcases Nat.lt_or_ge j 10 with hj | hj
  · have hj10 : ¬ (j ≥ 10) := by omega
    rw [Nat.testBit_and, Nat.testBit_shiftLeft, Nat.testBit_shiftLeft]
    simp [hj10]
  · rcases Nat.lt_or_ge j 32 with hj32 | hj32
    · have h1 : 10 + (j - 10) = j := by omega
      have h2 : j - 10 < 22 := by omega
      rw [Nat.testBit_and, Nat.testBit_shiftLeft, Nat.testBit_shiftLeft,
          Nat.testBit_shiftRight, Nat.testBit_two_pow_sub_one, h1]
      simp [hj, h2]
    · have hb : n.testBit j = false := by
        apply Nat.testBit_lt_two_pow
        calc n < 4294967296 := hn
          _ = 2 ^ 32 := by norm_num
          _ ≤ 2 ^ j := Nat.pow_le_pow_right (by norm_num) hj32
      have h1 : 10 + (j - 10) = j := by omega
      rw [Nat.testBit_and, Nat.testBit_shiftLeft, Nat.testBit_shiftLeft,
          Nat.testBit_shiftRight, h1]
      simp [hb]

/-- For lengths below the 32-bit range the computed buffer size is the next
multiple of 1024. -/
theorem bufSize_eq (len : Nat) (hlen : len + 1023 < 4294967296) :
    bufSize len = (len + 1023) / 1024 * 1024 := by
  unfold bufSize
  exact land_mask_eq _ hlen

/-- The computed buffer size never falls below the requested length for any
length within the framing bound. -/
theorem bufSize_ge (len : Nat) (hlen : len ≤ MaxMessageSizeBytes) : len ≤ bufSize len := by
  have h1 : len + 1023 < 4294967296 := by
    simp only [MaxMessageSizeBytes] at hlen
    omega
  rw [bufSize_eq len h1]
  omega


/-! ### Claim C8: buffer sizing and filling on the valid path -/

/-- Claim C8: for every totalLength in the legal band the computed buffer size
(len+1023) & 0xfffffc00 is the smallest multiple of 1024 that is at least
totalLength - in particular at least totalLength, so the internal z >= len
verify never fires - and the delivered Message consists of the 16 header
bytes already read followed by the remaining totalLength - 16 payload
bytes. -/
theorem recv_buffer_rounding (len : Nat) (s : SockState) (m0 : Option (List Nat))
    (h : MSGHEADER) (avail : List Nat) (rest : List NetInput)
    (hlo : 16 ≤ len) (hhi : len ≤ MaxMessageSizeBytes)
    (hh : h.messageLength = (len : Int)) (hw : s.awaitingHandshake = false)
    (hav : len - 16 ≤ avail.length) :
    bufSize len = (len + 1023) / 1024 * 1024
    ∧ len ≤ bufSize len
    ∧ bufSize len % 1024 = 0
    ∧ (∀ k, len ≤ k → k % 1024 = 0 → bufSize len ≤ k)
    ∧ recvModel s m0 (NetInput.hdr h avail :: rest)
        = ⟨RecvOutcome.ok, some (headerBytes h ++ avail.take (len - 16)), [],
           { s with awaitingHandshake := false }⟩ := by
  have hmax : len ≤ 48000000 := by simpa [MaxMessageSizeBytes] using hhi
  have h32 : len + 1023 < 4294967296 := by omega
  have heq : bufSize len = (len + 1023) / 1024 * 1024 := bufSize_eq len h32
  have hge : len ≤ bufSize len := bufSize_ge len hhi
  refine ⟨heq, hge, ?_, ?_, ?_⟩
  · rw [heq]; omega
  · intro k hk hk0; rw [heq]; omega
  · have hcast : castSize h.messageLength = len := by
      rw [hh]; unfold castSize; omega
    have h1 : ¬ (h.messageLength = 542393671) := by rw [hh]; omega
    have h2 : ¬ (h.messageLength = -1) := by rw [hh]; omega
    have h4 : ¬ (len < 16 ∨ MaxMessageSizeBytes < len) := by
      simp only [MaxMessageSizeBytes]
      omega
    have h5 : ¬ (bufSize len < len) := by omega
    simp [recvModel, h1, h2, hw, hcast, h4, h5, hav]

/-! ### Claim C4 (amended): failure behaviour of recv -/

/-- Claim C4 as amended: a transport error - while reading the header or while
reading the body - resets the output Message to empty and reports failure; a
framing error (length out of bounds) reports failure but leaves the output
Message untouched; in neither case does recv close the connection, and no run
of recv ever changes the closed flag of the socket. -/
theorem recv_failure_behaviour (s : SockState) (m0 : Option (List Nat))
    (h hv : MSGHEADER) (avail avail2 : List Nat) (rest ins : List NetInput)
    (hw : s.awaitingHandshake = false)
    (hget : h.messageLength ≠ 542393671) (hend : h.messageLength ≠ -1)
    (hbad : castSize h.messageLength < 16 ∨ MaxMessageSizeBytes < castSize h.messageLength)
    (hvget : hv.messageLength ≠ 542393671) (hvend : hv.messageLength ≠ -1)
    (hvlo : 16 ≤ castSize hv.messageLength) (hvhi : castSize hv.messageLength ≤ MaxMessageSizeBytes)
    (hshort : avail2.length < castSize hv.messageLength - 16) :
    recvModel s m0 (NetInput.hdrFail :: rest) = ⟨RecvOutcome.fail, none, [], s⟩
    ∧ recvModel s m0 (NetInput.hdr h avail :: rest) = ⟨RecvOutcome.fail, m0, [], s⟩
    ∧ recvModel s m0 (NetInput.hdr hv avail2 :: rest)
        = ⟨RecvOutcome.fail, none, [], { s with awaitingHandshake := false }⟩
    ∧ (recvModel s m0 ins).sock.closed = s.closed := by
  refine ⟨rfl, ?_, ?_, recvModel_closed ins s m0⟩
  · simp [recvModel, hget, hend, hw, hbad]
  · have h5 : ¬ (bufSize (castSize hv.messageLength) < castSize hv.messageLength) := by
      have := bufSize_ge (castSize hv.messageLength) hvhi
      omega
    have h6 : ¬ (castSize hv.messageLength - 16 ≤ avail2.length) := by omega
    have h4 : ¬ (castSize hv.messageLength < 16 ∨ MaxMessageSizeBytes < castSize hv.messageLength) := by
      omega
    simp [recvModel, hvget, hvend, hw, h4, h5, h6]


/-! ### Claim C5: piggyback batching -/

theorem getLen_nonneg (m : OutMsg) (hm : wellFormed m) : 0 ≤ getLen m := by
  unfold wellFormed at hm
  unfold getLen
  omega

theorem lenSum_nonneg (ms : List OutMsg) (h : ∀ x ∈ ms, wellFormed x) : 0 ≤ lenSum ms := by
  induction ms with
  | nil => simp [lenSum]
  | cons m ms ih =>
    have h1 := getLen_nonneg m (h m (by simp))
    have h2 := ih (fun x hx => h x (by simp [hx]))
    simp only [lenSum, List.map_cons, List.sum_cons] at *
    omega

theorem msgBytes_length (m : OutMsg) (hm : wellFormed m) :
    ((msgBytes m).length : Int) = getLen m := by
  unfold wellFormed at hm
  simp [msgBytes, headerBytes_length, getLen, hm]

theorem msgBytes_ne_nil (m : OutMsg) : msgBytes m ≠ [] := by
  unfold msgBytes headerBytes le32
  simp

theorem appendBytes_wf (m : OutMsg) (hm : wellFormed m) : appendBytes m = msgBytes m := by
  have hl := msgBytes_length m hm
  unfold appendBytes
  have : (getLen m).toNat = (msgBytes m).length := by omega
  rw [this, List.take_length]

/-- Appending messages whose cumulative length still fits leaves the buffer
holding the concatenation and performs no write. -/
theorem appendAll_fits :
    ∀ (ms : List OutMsg) (p : Port) (b : List Nat), p.buf = some b →
      (∀ x ∈ ms, wellFormed x) → (b.length : Int) + lenSum ms ≤ 1300 →
      appendAll p ms = some { p with buf := some (b ++ joinBytes ms) } := by
  intro ms
  induction ms with
  | nil =>
    intro p b hb _ _
    obtain ⟨c, pb, w⟩ := p
    simp only at hb
    simp [appendAll, joinBytes, hb]
  | cons m ms ih =>
    intro p b hb hwf hsum
    have hwm : wellFormed m := hwf m (by simp)
    have hwms : ∀ x ∈ ms, wellFormed x := fun x hx => hwf x (by simp [hx])
    have hsumtail : 0 ≤ lenSum ms := lenSum_nonneg ms hwms
    have hmnn : 0 ≤ getLen m := getLen_nonneg m hwm
    have hcons : lenSum (m :: ms) = getLen m + lenSum ms := by
      simp [lenSum]
    have hfit : ¬ (1300 < (b.length : Int) + getLen m) := by omega
    have hsmall : ¬ (1300 < getLen m) := by
      have : (0 : Int) ≤ b.length := by positivity
      omega
    have hstep : portAppend p m = some { p with buf := some (b ++ msgBytes m) } := by
      simp [portAppend, hb, hsmall, hfit, appendBytes_wf m hwm]
    have hlenb : ((b ++ msgBytes m).length : Int) = (b.length : Int) + getLen m := by
      have := msgBytes_length m hwm
      simp [List.length_append]
      omega
    have hrec := ih { p with buf := some (b ++ msgBytes m) } (b ++ msgBytes m) rfl hwms
      (by rw [hlenb]; omega)
    simp only [appendAll, hstep, hrec]
    simp [joinBytes]

/-- Claim C5: starting from an empty piggyback buffer, appending messages
whose cumulative length is at most 1300 performs no write and buffers all
their bytes in order; one subsequent flush then produces exactly one
transport write holding all appended bytes in append order and empties the
buffer; flushing an empty buffer is a no-op; and an append that would push
the cumulative length past 1300 first auto-flushes the buffered bytes, so
that the overflow scenario ends with exactly two transport writes. -/
theorem piggyback_batching (c : Int) (ms : List OutMsg) (m : OutMsg) (B : List Nat)
    (w : List Send)
    (hwf : ∀ x ∈ ms, wellFormed x) (hmwf : wellFormed m)
    (hsum : lenSum ms ≤ 1300) (hne : ms ≠ [])
    (hB : B ≠ []) (hover : 1300 < (B.length : Int) + getLen m) (hm : getLen m ≤ 1300) :
    appendAll ⟨c, some [], []⟩ ms = some ⟨c, some (joinBytes ms), []⟩
    ∧ joinBytes ms ≠ []
    ∧ portFlush ⟨c, some (joinBytes ms), []⟩ = ⟨c, some [], [⟨joinBytes ms, "flush"⟩]⟩
    ∧ portFlush ⟨c, some [], w⟩ = ⟨c, some [], w⟩
    ∧ portAppend ⟨c, some B, []⟩ m = some ⟨c, some (msgBytes m), [⟨B, "flush"⟩]⟩
    ∧ portFlush ⟨c, some (msgBytes m), [⟨B, "flush"⟩]⟩
        = ⟨c, some [], [⟨B, "flush"⟩, ⟨msgBytes m, "flush"⟩]⟩ := by
  have hjoin : joinBytes ms ≠ [] := by
    obtain ⟨m0, ms0, rfl⟩ : ∃ m0 ms0, ms = m0 :: ms0 := by
      cases ms with
      | nil => exact absurd rfl hne
      | cons a l => exact ⟨a, l, rfl⟩
    simp only [joinBytes, List.map_cons, List.flatten_cons]
    intro hcontra
    rw [List.append_eq_nil] at hcontra
    exact msgBytes_ne_nil m0 hcontra.1
  have hmb : msgBytes m ≠ [] := msgBytes_ne_nil m
  refine ⟨?_, hjoin, ?_, ?_, ?_, ?_⟩
  · have := appendAll_fits ms ⟨c, some [], []⟩ [] rfl hwf (by simpa using hsum)
    simpa using this
  · simp [portFlush, hjoin]
  · simp [portFlush]
  · unfold portAppend
    rw [if_neg (by omega : ¬ (1300 < getLen m))]
    simp only [Option.getD_some]
    rw [if_pos (by simpa using hover)]
    simp [portFlush, hB, appendBytes_wf m hmwf]
  · simp [portFlush, hmb]


/-! ### Claim C1: say() -/

theorem getLen_stamp (t : OutMsg) (i r : Int) : getLen (stamp t i r) = getLen t := rfl

theorem wellFormed_stamp (t : OutMsg) (i r : Int) (h : wellFormed t) :
    wellFormed (stamp t i r) := by
  simpa [wellFormed, stamp] using h

theorem portFlush_counter (p : Port) : (portFlush p).counter = p.counter := by
  obtain ⟨c, pb, w⟩ := p
  rcases pb with _ | b
  · rfl
  · unfold portFlush
    dsimp
    split <;> rfl

theorem portAppend_counter (p : Port) (m : OutMsg) (q : Port)
    (h : portAppend p m = some q) : q.counter = p.counter := by
  unfold portAppend at h
  split at h
  · exact absurd h (by simp)
  · simp only [Option.some.injEq] at h
    subst h
    dsimp
    split
    · exact portFlush_counter p
    · rfl

/-- Any successful run of say() returns the input message restamped with the
drawn counter value and the given responseTo, and advances the counter. -/
theorem sayModel_result (p : Port) (t : OutMsg) (rt : Int) (q : Port) (m : OutMsg)
    (h : sayModel p t rt = some (q, m)) :
    m = stamp t p.counter rt ∧ q.counter = p.counter + 1 := by
  unfold sayModel at h
  dsimp only at h
  split at h
  · split at h
    · simp only [Option.some.injEq, Prod.mk.injEq] at h
      obtain ⟨hq, hm⟩ := h
      subst hm
      refine ⟨rfl, ?_⟩
      rw [← hq]
      dsimp
      rw [portFlush_counter]
    · rcases hpa : portAppend { p with counter := p.counter + 1 } (stamp t p.counter rt)
        with _ | p2
      · rw [hpa] at h
        exact absurd h (by simp)
      · rw [hpa] at h
        simp only [Option.some.injEq, Prod.mk.injEq] at h
        obtain ⟨hq, hm⟩ := h
        subst hm
        refine ⟨rfl, ?_⟩
        rw [← hq, portFlush_counter, portAppend_counter _ _ _ hpa]
  · simp only [Option.some.injEq, Prod.mk.injEq] at h
    obtain ⟨hq, hm⟩ := h
    subst hm
    exact ⟨rfl, by rw [← hq]⟩

/-- Counterexample to claim C1 as stated: with one pending byte in the
piggyback buffer and a 16-byte message that fits, say() does not transmit the
message alone while keeping the pending byte buffered - instead it appends
the message to the buffer and flushes, producing a single combined write and
an empty buffer. -/
theorem say_pending_buffered_cex :
    sayModel ⟨5, some [7], []⟩ ⟨⟨16, 0, 0, 2004⟩, []⟩ 9
      = some (⟨6, some [], [⟨[7] ++ msgBytes ⟨⟨16, 5, 9, 2004⟩, []⟩, "flush"⟩]⟩,
              ⟨⟨16, 5, 9, 2004⟩, []⟩)
    ∧ (⟨6, some [], [⟨[7] ++ msgBytes ⟨⟨16, 5, 9, 2004⟩, []⟩, "flush"⟩]⟩ : Port).buf
        ≠ some [7]
    ∧ (⟨6, some [], [⟨[7] ++ msgBytes ⟨⟨16, 5, 9, 2004⟩, []⟩, "flush"⟩]⟩ : Port).writes
        ≠ [⟨msgBytes ⟨⟨16, 5, 9, 2004⟩, []⟩, "say"⟩] := by
  refine ⟨by decide, by decide, by decide⟩

/-- Claim C1 as amended: say() stamps the message with a freshly drawn id from
the global counter and the given responseTo; with pending piggyback bytes it
flushes them first and then transmits the message directly when adding the
message would exceed the 1300-byte capacity, and otherwise appends the
message to the pending bytes and flushes, transmitting pending bytes plus
message as one write and leaving the buffer empty; with no pending bytes it
transmits the message directly. -/
theorem say_stamps_and_flushes (p : Port) (toSend : OutMsg) (responseTo : Int)
    (hwf : wellFormed toSend) :
    (∀ q m, sayModel p toSend responseTo = some (q, m) →
        m.header.requestID = p.counter ∧ m.header.responseTo = responseTo
          ∧ q.counter = p.counter + 1)
    ∧ (∀ b, p.buf = some b → b ≠ [] →
        (1300 < (b.length : Int) + getLen toSend →
          sayModel p toSend responseTo
            = some (⟨p.counter + 1, some [],
                p.writes ++ [⟨b, "flush"⟩,
                  ⟨msgBytes (stamp toSend p.counter responseTo), "say"⟩]⟩,
                stamp toSend p.counter responseTo))
        ∧ ((b.length : Int) + getLen toSend ≤ 1300 →
          sayModel p toSend responseTo
            = some (⟨p.counter + 1, some [],
                p.writes ++ [⟨b ++ msgBytes (stamp toSend p.counter responseTo), "flush"⟩]⟩,
                stamp toSend p.counter responseTo)))
    ∧ ((p.buf = none ∨ p.buf = some ([] : List Nat)) →
        sayModel p toSend responseTo
          = some (⟨p.counter + 1, p.buf,
              p.writes ++ [⟨msgBytes (stamp toSend p.counter responseTo), "say"⟩]⟩,
              stamp toSend p.counter responseTo)) := by
  obtain ⟨c, pb, w⟩ := p
  refine ⟨?_, ?_, ?_⟩
  · intro q m h
    obtain ⟨hm, hc⟩ := sayModel_result _ _ _ _ _ h
    subst hm
    exact ⟨rfl, rfl, hc⟩
  · intro b hb hbne
    dsimp only at hb
    subst hb
    have hlen0 : b.length ≠ 0 := fun hz => hbne (List.eq_nil_of_length_eq_zero hz)
    constructor
    · intro hover
      unfold sayModel
      dsimp only
      rw [if_pos (by simpa using hlen0),
          if_pos (by simpa [getLen_stamp] using hover)]
      unfold portFlush
      dsimp
      rw [if_neg hbne]
      simp
    · intro hfit
      have hbl : (1 : Int) ≤ b.length := by
        have : 1 ≤ b.length := Nat.one_le_iff_ne_zero.mpr hlen0
        exact_mod_cast this
      have hsmall : ¬ (1300 < getLen (stamp toSend c responseTo)) := by
        rw [getLen_stamp]; omega
      unfold sayModel
      dsimp only
      rw [if_pos (by simpa using hlen0),
          if_neg (by simpa [getLen_stamp] using hfit)]
      unfold portAppend
      rw [if_neg hsmall]
      dsimp
      rw [if_neg (by simpa [getLen_stamp] using hfit)]
      rw [appendBytes_wf _ (wellFormed_stamp toSend c responseTo hwf)]
      unfold portFlush
      dsimp
      rw [if_neg (by simp [hbne])]
  · intro hcase
    have hempty : (pb.getD []).length = 0 := by
      rcases hcase with hc1 | hc1 <;>
        (dsimp only at hc1; subst hc1; rfl)
    unfold sayModel
    dsimp only
    rw [if_neg (by simpa using hempty)]


/-! ### Claim C2: request/response correlation in call() -/

/-- Claim C2: after call() sends toSend (restamping its requestId), a received
reply whose responseTo equals the freshly stamped requestId makes the call
succeed with exactly that reply, while a reply whose responseTo differs ends
the call in the distinguished correlationError outcome (verify(false), an
unrecoverable protocol violation for the connection): the mismatched reply is
neither accepted as the answer nor silently discarded and retried - the
outcome is fixed whatever further replies would follow. -/
theorem call_correlation (p : Port) (toSend : OutMsg) (r : MSGHEADER)
    (rest : List (Option MSGHEADER)) (q : Port) (m : OutMsg) (out : CallOutcome)
    (h : callModel p toSend (some r :: rest) = some (q, m, out)) :
    (r.responseTo = m.header.requestID → out = CallOutcome.success r)
    ∧ (r.responseTo ≠ m.header.requestID → out = CallOutcome.correlationError) := by
  unfold callModel at h
  rcases hs : sayModel p toSend sayDefault with _ | pm
  · rw [hs] at h
    exact absurd h (by simp)
  · obtain ⟨p1, m1⟩ := pm
    rw [hs] at h
    simp only [Option.some.injEq, Prod.mk.injEq] at h
    obtain ⟨hq, hm, hout⟩ := h
    subst hm
    constructor
    · intro hmatch
      rw [← hout]
      unfold callCorrelate
      dsimp only
      rw [if_pos hmatch]
    · intro hmm
      rw [← hout]
      unfold callCorrelate
      dsimp only
      rw [if_neg hmm]

/-! ### Claim C10: piggyBack of an oversize message -/

/-- Claim C10: a message whose header length exceeds 1300 is passed by
piggyBack straight to say() without the responseTo argument, so the message
goes out stamped with say's declared default responseTo instead of the value
given to piggyBack; a message of length at most 1300 is stamped with the
given responseTo. -/
theorem piggyback_oversize_responseTo (p : Port) (toSend : OutMsg) (r : Int) :
    (1300 < getLen toSend →
        piggyBackModel p toSend r = sayModel p toSend sayDefault
        ∧ (∀ q m, piggyBackModel p toSend r = some (q, m) →
            m.header.responseTo = sayDefault ∧ (r ≠ sayDefault → m.header.responseTo ≠ r)))
    ∧ (¬ 1300 < getLen toSend →
        ∀ q m, piggyBackModel p toSend r = some (q, m) → m.header.responseTo = r) := by
  constructor
  · intro hbig
    have hpb : piggyBackModel p toSend r = sayModel p toSend sayDefault := by
      unfold piggyBackModel
      rw [if_pos hbig]
    refine ⟨hpb, ?_⟩
    intro q m h
    rw [hpb] at h
    obtain ⟨hm, _⟩ := sayModel_result _ _ _ _ _ h
    subst hm
    refine ⟨rfl, ?_⟩
    intro hne
    simpa [stamp] using fun hcontra => hne (hcontra.symm)
  · intro hsmall q m h
    unfold piggyBackModel at h
    rw [if_neg hsmall] at h
    dsimp only at h
    split at h
    · exact absurd h (by simp)
    · simp only [Option.some.injEq, Prod.mk.injEq] at h
      obtain ⟨_, hm⟩ := h
      rw [← hm]
      rfl


/-! ### Witnesses -/

/-- Witness for recv_endian_probe at a concrete probe header. -/
theorem recv_endian_probe_witness :
    (⟨-1, 0, 0, 0⟩ : MSGHEADER).messageLength = -1
    ∧ (recvModel ⟨true, false⟩ none [NetInput.hdr ⟨-1, 0, 0, 0⟩ []]
        = ⟨(recvModel ⟨false, false⟩ none []).outcome,
           (recvModel ⟨false, false⟩ none []).msg,
           ⟨endianBytes, "endian"⟩ :: (recvModel ⟨false, false⟩ none []).sends,
           (recvModel ⟨false, false⟩ none []).sock⟩
       ∧ endianBytes = [64, 48, 32, 16]) := by
  refine ⟨by decide, ?_⟩
  exact recv_endian_probe ⟨true, false⟩ none ⟨-1, 0, 0, 0⟩ [] [] (by decide)

/-- Witness for recv_http_get at a concrete GET header. -/
theorem recv_http_get_witness :
    (⟨542393671, 0, 0, 0⟩ : MSGHEADER).messageLength = 542393671
    ∧ (recvModel ⟨false, false⟩ none [NetInput.hdr ⟨542393671, 0, 0, 0⟩ []]
        = ⟨RecvOutcome.fail, none, [⟨strBytes httpResponse, "http"⟩], ⟨false, false⟩⟩
       ∧ httpResponse
           = httpPre ++ "Content-Length: " ++ toString (strBytes httpMsg).length
               ++ "\r\n\r\n" ++ httpMsg
       ∧ (strBytes httpMsg).length = 84
       ∧ hasBlankLine
           (httpPre ++ "Content-Length: " ++ toString (strBytes httpMsg).length).data
           = false) := by
  refine ⟨by decide, ?_⟩
  exact recv_http_get ⟨false, false⟩ none ⟨542393671, 0, 0, 0⟩ [] [] (by decide)

/-- Witness for recv_handshake_before_length: a first packet with responseTo 7
and the out-of-range length 5 raises assertion 17133 instead of the framing
failure. -/
theorem recv_handshake_before_length_witness :
    (⟨5, 0, 7, 0⟩ : MSGHEADER).responseTo ≠ 0
    ∧ recvModel ⟨true, false⟩ none [NetInput.hdr ⟨5, 0, 7, 0⟩ []]
        = ⟨RecvOutcome.uassertErr 17133, none, [], ⟨true, false⟩⟩ := by
  refine ⟨by decide, ?_⟩
  exact recv_handshake_before_length ⟨true, false⟩ none ⟨5, 0, 7, 0⟩ [] []
    (by decide) (by decide) (by decide) (by decide) (by decide)

/-- Witness for recv_invalid_length_fails at the concrete invalid length 5. -/
theorem recv_invalid_length_fails_witness :
    ((⟨5, 0, 0, 0⟩ : MSGHEADER).messageLength < 16
        ∨ (MaxMessageSizeBytes : Int) < (⟨5, 0, 0, 0⟩ : MSGHEADER).messageLength)
    ∧ (((recvModel ⟨false, false⟩ (some [1]) [NetInput.hdr ⟨5, 0, 0, 0⟩ []]).outcome
          = RecvOutcome.fail
        ∨ (recvModel ⟨false, false⟩ (some [1]) [NetInput.hdr ⟨5, 0, 0, 0⟩ []]).outcome
          = RecvOutcome.uassertErr 17133)
       ∧ (recvModel ⟨false, false⟩ (some [1]) [NetInput.hdr ⟨5, 0, 0, 0⟩ []]).msg
          = some [1]) := by
  refine ⟨by left; decide, ?_⟩
  exact recv_invalid_length_fails ⟨false, false⟩ (some [1]) ⟨5, 0, 0, 0⟩ [] []
    (by decide) (by decide) (by decide) (by decide) (by left; decide)

/-- Witness for recv_failure_behaviour at concrete failing inputs. -/
theorem recv_failure_behaviour_witness :
    castSize (⟨5, 0, 0, 0⟩ : MSGHEADER).messageLength < 16
    ∧ (recvModel ⟨false, false⟩ (some [9]) [NetInput.hdrFail]
        = ⟨RecvOutcome.fail, none, [], ⟨false, false⟩⟩
       ∧ recvModel ⟨false, false⟩ (some [9]) [NetInput.hdr ⟨5, 0, 0, 0⟩ []]
        = ⟨RecvOutcome.fail, some [9], [], ⟨false, false⟩⟩
       ∧ recvModel ⟨false, false⟩ (some [9]) [NetInput.hdr ⟨20, 0, 0, 0⟩ [1, 2]]
        = ⟨RecvOutcome.fail, none, [], ⟨false, false⟩⟩
       ∧ (recvModel ⟨false, false⟩ (some [9]) [NetInput.hdrFail]).sock.closed = false) := by
  refine ⟨by decide, ?_⟩
  exact recv_failure_behaviour ⟨false, false⟩ (some [9]) ⟨5, 0, 0, 0⟩ ⟨20, 0, 0, 0⟩
    [] [1, 2] [] [NetInput.hdrFail] (by decide) (by decide) (by decide)
    (by left; decide) (by decide) (by decide) (by decide) (by decide) (by decide)

/-- Witness for recv_buffer_rounding at the concrete length 20. -/
theorem recv_buffer_rounding_witness :
    16 ≤ 20
    ∧ bufSize 20 = (20 + 1023) / 1024 * 1024
    ∧ 20 ≤ bufSize 20
    ∧ recvModel ⟨false, false⟩ none [NetInput.hdr ⟨20, 0, 0, 0⟩ [1, 2, 3, 4]]
        = ⟨RecvOutcome.ok,
           some (headerBytes ⟨20, 0, 0, 0⟩ ++ [1, 2, 3, 4].take (20 - 16)), [],
           ⟨false, false⟩⟩ := by
  have h := recv_buffer_rounding 20 ⟨false, false⟩ none ⟨20, 0, 0, 0⟩ [1, 2, 3, 4] []
    (by decide) (by decide) (by decide) (by decide) (by decide)
  exact ⟨by decide, h.1, h.2.1, h.2.2.2.2⟩

/-- Witness for piggyback_batching: one 16-byte message buffered and flushed,
then an overflow append on a 1290-byte buffer followed by a final flush. -/
theorem piggyback_batching_witness :
    lenSum [⟨⟨16, 1, 2, 3⟩, []⟩] ≤ 1300
    ∧ (appendAll ⟨0, some [], []⟩ [⟨⟨16, 1, 2, 3⟩, []⟩]
        = some ⟨0, some (joinBytes [⟨⟨16, 1, 2, 3⟩, []⟩]), []⟩
       ∧ joinBytes [⟨⟨16, 1, 2, 3⟩, []⟩] ≠ []
       ∧ portFlush ⟨0, some (joinBytes [⟨⟨16, 1, 2, 3⟩, []⟩]), []⟩
        = ⟨0, some [], [⟨joinBytes [⟨⟨16, 1, 2, 3⟩, []⟩], "flush"⟩]⟩
       ∧ portFlush ⟨0, some [], []⟩ = ⟨0, some [], []⟩
       ∧ portAppend ⟨0, some (List.replicate 1290 7), []⟩ ⟨⟨16, 4, 5, 6⟩, []⟩
        = some ⟨0, some (msgBytes ⟨⟨16, 4, 5, 6⟩, []⟩), [⟨List.replicate 1290 7, "flush"⟩]⟩
       ∧ portFlush ⟨0, some (msgBytes ⟨⟨16, 4, 5, 6⟩, []⟩), [⟨List.replicate 1290 7, "flush"⟩]⟩
        = ⟨0, some [],
           [⟨List.replicate 1290 7, "flush"⟩, ⟨msgBytes ⟨⟨16, 4, 5, 6⟩, []⟩, "flush"⟩]⟩) := by
  refine ⟨by decide, ?_⟩
  refine piggyback_batching 0 [⟨⟨16, 1, 2, 3⟩, []⟩] ⟨⟨16, 4, 5, 6⟩, []⟩
    (List.replicate 1290 7) [] ?_ ?_ ?_ ?_ ?_ ?_ ?_
  · intro x hx
    simp only [List.mem_singleton] at hx
    subst hx
    unfold wellFormed
    decide
  · unfold wellFormed
    decide
  · decide
  · decide
  · decide
  · decide
  · decide

/-- Witness for say_stamps_and_flushes: one pending byte plus a fitting
16-byte message yields the single combined flush write. -/
theorem say_stamps_and_flushes_witness :
    wellFormed ⟨⟨16, 0, 0, 2004⟩, []⟩
    ∧ sayModel ⟨5, some [7], []⟩ ⟨⟨16, 0, 0, 2004⟩, []⟩ 9
        = some (⟨5 + 1, some [],
            [] ++ [⟨[7] ++ msgBytes (stamp ⟨⟨16, 0, 0, 2004⟩, []⟩ 5 9), "flush"⟩]⟩,
            stamp ⟨⟨16, 0, 0, 2004⟩, []⟩ 5 9) := by
  refine ⟨by unfold wellFormed; decide, ?_⟩
  exact ((say_stamps_and_flushes ⟨5, some [7], []⟩ ⟨⟨16, 0, 0, 2004⟩, []⟩ 9
    (by unfold wellFormed; decide)).2.1 [7] rfl (by decide)).2 (by decide)

/-- Witness for call_correlation: a reply with responseTo 999 against the
stamped requestId 100 ends in correlationError. -/
theorem call_correlation_witness :
    callModel ⟨100, none, []⟩ ⟨⟨16, 0, 0, 1⟩, []⟩ [some ⟨36, 7, 999, 1⟩]
      = some (⟨101, none, [⟨msgBytes ⟨⟨16, 100, -1, 1⟩, []⟩, "say"⟩]⟩,
              ⟨⟨16, 100, -1, 1⟩, []⟩, CallOutcome.correlationError)
    ∧ CallOutcome.correlationError = CallOutcome.correlationError := by
  refine ⟨by decide, ?_⟩
  exact (call_correlation ⟨100, none, []⟩ ⟨⟨16, 0, 0, 1⟩, []⟩ ⟨36, 7, 999, 1⟩ []
    ⟨101, none, [⟨msgBytes ⟨⟨16, 100, -1, 1⟩, []⟩, "say"⟩]⟩ ⟨⟨16, 100, -1, 1⟩, []⟩
    CallOutcome.correlationError (by decide)).2 (by decide)

/-- Witness for piggyback_oversize_responseTo: a 1400-byte message handed to
piggyBack with responseTo 9 goes out through say() with the default
responseTo. -/
theorem piggyback_oversize_responseTo_witness :
    (1300 : Int) < getLen ⟨⟨1400, 0, 0, 1⟩, []⟩
    ∧ piggyBackModel ⟨50, none, []⟩ ⟨⟨1400, 0, 0, 1⟩, []⟩ 9
        = sayModel ⟨50, none, []⟩ ⟨⟨1400, 0, 0, 1⟩, []⟩ sayDefault
    ∧ (⟨⟨1400, 50, -1, 1⟩, []⟩ : OutMsg).header.responseTo = sayDefault := by
  refine ⟨by decide, ?_, ?_⟩
  · exact ((piggyback_oversize_responseTo ⟨50, none, []⟩ ⟨⟨1400, 0, 0, 1⟩, []⟩ 9).1
      (by decide)).1
  · exact (((piggyback_oversize_responseTo ⟨50, none, []⟩ ⟨⟨1400, 0, 0, 1⟩, []⟩ 9).1
      (by decide)).2 ⟨51, none, [⟨msgBytes ⟨⟨1400, 50, -1, 1⟩, []⟩, "say"⟩]⟩
      ⟨⟨1400, 50, -1, 1⟩, []⟩ (by decide)).1

end MongoWire
